import Mathlib

/-!
# mp4v2 utility header (`src/branch/win32/src/mp4util.h`)

A shallow embedding of the FOURCC codec, the allocator wrappers and the
`MP4Error` value of `mp4util.h`, with the properties proved about them.

Conventions of the embedding:
* a byte is a `Nat` below 256, a `uint32_t` a `Nat` below `2^32`;
* a `char*` buffer handed to the codec is the list of the bytes of the array
  it points to; an access past the end of that array is undefined behaviour
  and is modelled by `none`;
* pointers into allocator memory are addresses (`Nat`), `NULL` is `0`.
-/

namespace mp4v2.impl

/-! ## FOURCC codec -/

/-- Byte order of the host on which the header is compiled. -/
inductive Endian where
  | little
  | big
  deriving DecidableEq, Repr

/-- Byte `k` (0 = least significant) of a 32-bit value. -/
def byteOf (x k : Nat) : Nat := (x / 2 ^ (8 * k)) % 256

/-- Exchange of the four bytes of a 32-bit value. -/
def bswap32 (x : Nat) : Nat :=
  byteOf x 0 * 2 ^ 24 + byteOf x 1 * 2 ^ 16 + byteOf x 2 * 2 ^ 8 + byteOf x 3

/-- Modelled from the spec: the macro `MP4V2_NTOHL` is used by `STRTOINT32`
but defined outside `src/`. The spec calls the codec "network byte order";
the macro is the host's `ntohl`: the identity on a big-endian host, the byte
exchange on a little-endian one. -/
def MP4V2_NTOHL (e : Endian) (x : Nat) : Nat :=
  match e with
  | Endian.big => x % 2 ^ 32
  | Endian.little => bswap32 x

/-- Modelled from the spec: the macro `MP4V2_HTONL` is used by `INT32TOSTR`
but defined outside `src/`; it is the host's `htonl`, the same conversion as
`MP4V2_NTOHL` in the other direction. -/
def MP4V2_HTONL (e : Endian) (x : Nat) : Nat :=
  match e with
  | Endian.big => x % 2 ^ 32
  | Endian.little => bswap32 x

/-- The load `*(uint32_t *)s`: the four bytes at `s[0..3]` read as one 32-bit
value in host byte order. Fewer than four readable bytes: undefined. -/
def load32 (e : Endian) (s : List Nat) : Option Nat :=
  match s with
  | b0 :: b1 :: b2 :: b3 :: _ =>
    match e with
    | Endian.big => some (b0 * 2 ^ 24 + b1 * 2 ^ 16 + b2 * 2 ^ 8 + b3)
    | Endian.little => some (b3 * 2 ^ 24 + b2 * 2 ^ 16 + b1 * 2 ^ 8 + b0)
  | _ => none

/-- The store `*(uint32_t *)s = x`: the four bytes of `x` written to
`s[0..3]` in host byte order; the rest of the buffer is kept. Fewer than
four writable bytes: undefined. -/
def store32 (e : Endian) (x : Nat) (s : List Nat) : Option (List Nat) :=
  match s with
  | _ :: _ :: _ :: _ :: rest =>
    match e with
    | Endian.big =>
      some (byteOf x 3 :: byteOf x 2 :: byteOf x 1 :: byteOf x 0 :: rest)
    | Endian.little =>
      some (byteOf x 0 :: byteOf x 1 :: byteOf x 2 :: byteOf x 3 :: rest)
  | _ => none

/-- The store `s[4] = c`. A buffer of fewer than five bytes: undefined. -/
def storeByte4 (c : Nat) (s : List Nat) : Option (List Nat) :=
  match s with
  | c0 :: c1 :: c2 :: c3 :: _ :: rest => some (c0 :: c1 :: c2 :: c3 :: c :: rest)
  | _ => none

/-- Source `STRTOINT32`: `return MP4V2_NTOHL(*(uint32_t *)s);`. -/
def STRTOINT32 (e : Endian) (s : List Nat) : Option Nat :=
  (load32 e s).map (MP4V2_NTOHL e)

/-- Source `INT32TOSTR`: `*(uint32_t *)s = MP4V2_HTONL(i); s[4] = 0;`.
The result is the buffer `s` after the call. -/
def INT32TOSTR (e : Endian) (i : Nat) (s : List Nat) : Option (List Nat) :=
  (store32 e (MP4V2_HTONL e i) s).bind (storeByte4 0)

/-! ## Host C library and process state

The header calls the host's `malloc`, `realloc`, `free`, `memset`, `strlen`,
`strcpy` and `vsnprintf` and reads `errno`. The allocator's answers and the
expansion of a format are not fixed by the header, so they are parameters
(`Host`); the process state is passed explicitly (`World`). A caller-owned
string (`const char*` argument) is the list of the bytes of the array it
points to, terminator included. -/

/-- One call to the host allocator, as recorded in the world's log. -/
inductive HostCall where
  | malloc (size : Nat)
  | realloc (p : Nat) (size : Nat)
  | free (p : Nat)
  deriving DecidableEq, Repr

/-- The process state seen by the header: `errno`, the byte at each address,
and the log of the calls made to the host allocator, oldest first. -/
structure World where
  errno : Int
  mem : Nat → Nat
  calls : List HostCall

/-- The host allocator's answer to one call: the pointer it returns
(`0` is `NULL`), and `errno` and the memory as the call leaves them. -/
structure Reply where
  ptr : Nat
  errno : Int
  mem : Nat → Nat

/-- A variadic argument passed to a formatted constructor. -/
inductive Arg where
  | int (i : Int)
  | str (s : List Nat)
  deriving DecidableEq, Repr

/-- A behaviour of the host C library: what `malloc(size)` and
`realloc(p, size)` answer in a given state, and the full (untruncated)
expansion that the `printf` family produces for a format and its arguments. -/
structure Host where
  malloc : World → Nat → Reply
  realloc : World → Nat → Nat → Reply
  expand : List Nat → List Arg → List Nat

/-- The call `malloc(size)`: returned pointer and state after the call. -/
def hostMalloc (h : Host) (size : Nat) (w : World) : Nat × World :=
  ((h.malloc w size).ptr,
   { errno := (h.malloc w size).errno, mem := (h.malloc w size).mem,
     calls := w.calls ++ [HostCall.malloc size] })

/-- The call `realloc(p, size)`: returned pointer and state after the call. -/
def hostRealloc (h : Host) (p size : Nat) (w : World) : Nat × World :=
  ((h.realloc w p size).ptr,
   { errno := (h.realloc w p size).errno, mem := (h.realloc w p size).mem,
     calls := w.calls ++ [HostCall.realloc p size] })

/-- Memory after the bytes `bs` have been written at addresses `p`, `p+1`, ... -/
def writeBytes (m : Nat → Nat) (p : Nat) (bs : List Nat) : Nat → Nat :=
  fun a => if p ≤ a ∧ a < p + bs.length then bs.getD (a - p) 0 else m a

/-- The `n` bytes stored at addresses `p`, ..., `p+n-1`. -/
def readBytes (m : Nat → Nat) (p n : Nat) : List Nat :=
  (List.range n).map (fun i => m (p + i))

/-! ## MP4Error -/

/-- A `const char*` held by an `MP4Error`: `NULL`, a pointer to a
caller-owned string (given by the bytes of its array), or a pointer into
allocator memory. -/
inductive CStr where
  | null
  | lit (bytes : List Nat)
  | heap (p : Nat)
  deriving DecidableEq, Repr

/-- Source `class MP4Error`: its four data members. -/
structure MP4Error where
  m_free : Int
  m_errno : Int
  m_errstring : CStr
  m_where : CStr
  deriving DecidableEq, Repr

/-- Outcome of a call that may throw: normal return of a value, a thrown
`MP4Error` (`throw new MP4Error(...)`), each with the state reached, or
undefined behaviour. -/
inductive Res (α : Type) where
  | ret (v : α) (w : World)
  | raise (e : MP4Error) (w : World)
  | undef

/-- Sequencing of two calls: a throw or undefined behaviour of the first
ends the evaluation. -/
def Res.bind {α β : Type} (r : Res α) (f : α → World → Res β) : Res β :=
  match r with
  | Res.ret v w => f v w
  | Res.raise e w => Res.raise e w
  | Res.undef => Res.undef

/-- Source `MP4Error(int err, const char* where = NULL)`. -/
def MP4Error.ofCode (err : Int) (where_ : CStr) : MP4Error :=
  { m_errno := err, m_errstring := CStr.null, m_where := where_, m_free := 0 }

/-- The call `vsnprintf(dst, n, format, ap)` of the C library: at most
`n - 1` bytes of the expansion are stored at `dst`, followed by a NUL;
nothing is stored when `n` is 0. -/
def vsnprintf (h : Host) (dst n : Nat) (format : List Nat) (ap : List Arg)
    (w : World) : World :=
  if n = 0 then w
  else { w with mem := writeBytes w.mem dst ((h.expand format ap).take (n - 1) ++ [0]) }

/-- Source `MP4Error(const char *format, const char *where, ...)`. -/
def MP4Error.ofFormat (h : Host) (format : List Nat) (where_ : CStr)
    (ap : List Arg) (w : World) : MP4Error × World :=
  let string := (hostMalloc h 512 w).1
  let w1 := (hostMalloc h 512 w).2
  if string ≠ 0 then
    ({ m_errno := 0, m_where := where_, m_errstring := CStr.heap string, m_free := 1 },
     vsnprintf h string 512 format ap w1)
  else
    ({ m_errno := 0, m_where := where_, m_errstring := CStr.lit format, m_free := 0 }, w1)

/-- Source `MP4Error(int err, const char* format, const char* where, ...)`. -/
def MP4Error.ofCodeFormat (h : Host) (err : Int) (format : List Nat) (where_ : CStr)
    (ap : List Arg) (w : World) : MP4Error × World :=
  let string := (hostMalloc h 512 w).1
  let w1 := (hostMalloc h 512 w).2
  if string ≠ 0 then
    ({ m_errno := err, m_where := where_, m_errstring := CStr.heap string, m_free := 1 },
     vsnprintf h string 512 format ap w1)
  else
    ({ m_errno := err, m_where := where_, m_errstring := CStr.lit format, m_free := 0 }, w1)

/-! ## Allocator wrappers -/

/-- Source `MP4Malloc`. The storage of the thrown object itself
(`new MP4Error`) is outside the model. -/
def MP4Malloc (h : Host) (size : Nat) (w : World) : Res Nat :=
  if size = 0 then Res.ret 0 w
  else
    let p := (hostMalloc h size w).1
    let w1 := (hostMalloc h size w).2
    if p = 0 ∧ size > 0 then Res.raise (MP4Error.ofCode w1.errno CStr.null) w1
    else Res.ret p w1

/-- The call `memset(p, c, n)`: a `NULL` destination is undefined. -/
def memset (p c n : Nat) (w : World) : Res Nat :=
  if p = 0 then Res.undef
  else Res.ret p { w with mem := writeBytes w.mem p (List.replicate n c) }

/-- Source `MP4Calloc`. -/
def MP4Calloc (h : Host) (size : Nat) (w : World) : Res Nat :=
  if size = 0 then Res.ret 0 w
  else (MP4Malloc h size w).bind (fun p w1 => memset p 0 size w1)

/-- The call `strlen(s)`: the index of the first NUL of the array; undefined
(`none`) when the array holds no NUL. -/
def strlen : List Nat → Option Nat
  | [] => none
  | b :: rest => if b = 0 then some 0 else (strlen rest).map (fun k => k + 1)

/-- The call `strcpy(dst, src)`: the bytes of `src` up to and including its
first NUL are stored at `dst`; a `NULL` destination or an unterminated
source is undefined. -/
def strcpy (dst : Nat) (src : List Nat) (w : World) : Res Nat :=
  match strlen src with
  | none => Res.undef
  | some len =>
    if dst = 0 then Res.undef
    else Res.ret dst { w with mem := writeBytes w.mem dst (src.take (len + 1)) }

/-- Source `MP4Stralloc`. -/
def MP4Stralloc (h : Host) (s1 : List Nat) (w : World) : Res Nat :=
  match strlen s1 with
  | none => Res.undef
  | some len => (MP4Malloc h (len + 1) w).bind (fun s2 w1 => strcpy s2 s1 w1)

/-- Source `MP4Realloc`. The parameter `newSize` is a `uint32_t`: whatever
the caller passes, the body works on its value modulo `2^32`. -/
def MP4Realloc (h : Host) (p newSize : Nat) (w : World) : Res Nat :=
  if p = 0 ∧ newSize % 2 ^ 32 = 0 then Res.ret 0 w
  else
    let q := (hostRealloc h p (newSize % 2 ^ 32) w).1
    let w1 := (hostRealloc h p (newSize % 2 ^ 32) w).2
    if q = 0 ∧ newSize % 2 ^ 32 > 0 then Res.raise (MP4Error.ofCode w1.errno CStr.null) w1
    else Res.ret q w1

/-! ## Concrete hosts used to evaluate the examples -/

/-- Decimal digits (ASCII) of `n`, most significant first. -/
def decDigits : Nat → Nat → List Nat
  | 0, _ => []
  | fuel + 1, n => if n < 10 then [48 + n] else decDigits fuel (n / 10) ++ [48 + n % 10]

/-- The text `printf` gives for `%d`. -/
def showInt (i : Int) : List Nat :=
  if i < 0 then 45 :: decDigits (i.natAbs + 1) i.natAbs
  else decDigits (i.natAbs + 1) i.natAbs

/-- The bytes of a C string before its first NUL. -/
def cstrBytes (s : List Nat) : List Nat := s.takeWhile (fun b => b ≠ 0)

/-- A format expansion covering `%d`, `%s`, `%%` and literal bytes, reading
the format up to its NUL; `pct` tells that the previous byte was an
unfinished `%`. Other conversions are not covered and expand to nothing. -/
def printfExpandFrom : Bool → List Nat → List Arg → List Nat
  | _, [], _ => []
  | pct, b :: rest, ap =>
    if b = 0 then []
    else if pct then
      if b = 37 then 37 :: printfExpandFrom false rest ap
      else
        match b, ap with
        | 100, Arg.int i :: ap2 => showInt i ++ printfExpandFrom false rest ap2
        | 115, Arg.str s :: ap2 => cstrBytes s ++ printfExpandFrom false rest ap2
        | _, _ => printfExpandFrom false rest ap
    else if b = 37 then printfExpandFrom true rest ap
    else b :: printfExpandFrom false rest ap

/-- The expansion of a whole format. -/
def printfExpand (format : List Nat) (ap : List Arg) : List Nat :=
  printfExpandFrom false format ap

/-- A host whose allocator grants every request at a fixed address. -/
def grantHost (a : Nat) : Host :=
  { malloc := fun w _ => { ptr := a, errno := w.errno, mem := w.mem },
    realloc := fun w _ _ => { ptr := a, errno := w.errno, mem := w.mem },
    expand := printfExpand }

/-- A host whose allocator denies every request with error number `e`. -/
def denyHost (e : Int) : Host :=
  { malloc := fun w _ => { ptr := 0, errno := e, mem := w.mem },
    realloc := fun w _ _ => { ptr := 0, errno := e, mem := w.mem },
    expand := printfExpand }

/-- An initial state: `errno` 0, every byte `0xAA`, no allocator call yet. -/
def world0 : World := { errno := 0, mem := fun _ => 170, calls := [] }

/-! ## Destruction, assertion, diagnostic gate, release macro -/

/-- Source `MP4Error()`: the default constructor. -/
def MP4Error.init : MP4Error :=
  { m_errno := 0, m_errstring := CStr.null, m_where := CStr.null, m_free := 0 }

/-- The call `free(p)` on an address: recorded in the log of allocator calls. -/
def hostFree (p : Nat) (w : World) : World :=
  { w with calls := w.calls ++ [HostCall.free p] }

/-- The call `free((void *)s)` on a string pointer: `free(NULL)` and the
release of an allocator address are calls to the host; releasing a
caller-owned string, which the allocator never returned, is undefined. -/
def freeCStr (s : CStr) (w : World) : Option World :=
  match s with
  | CStr.null => some (hostFree 0 w)
  | CStr.heap p => some (hostFree p w)
  | CStr.lit _ => none

/-- Source `~MP4Error()`: `if (m_free != 0) { free((void *)m_errstring); }`. -/
def MP4Error.destroy (e : MP4Error) (w : World) : Option World :=
  if e.m_free ≠ 0 then freeCStr e.m_errstring w else some w

/-- Source `LIBMPV42_STRINGIFY(x)`, that is `#x`: the string literal spelling
the tokens `x`, given here by their bytes; the literal ends with a NUL. -/
def LIBMPV42_STRINGIFY (x : List Nat) : List Nat := x ++ [0]

/-- The string literal `"assert failure"`. -/
def assertFailure : List Nat :=
  [97, 115, 115, 101, 114, 116, 32, 102, 97, 105, 108, 117, 114, 101, 0]

/-- Source `ASSERT(expr)`:
`if (!(expr)) { throw new MP4Error("assert failure", LIBMPV42_STRINGIFY((expr))); }`.
`expr` is the value the expression evaluates to and `text` its spelling;
the macro passes `(expr)`, parentheses included, to the stringification. -/
def ASSERT (h : Host) (expr : Bool) (text : List Nat) (w : World) : Res Unit :=
  if !expr then
    Res.raise
      (MP4Error.ofFormat h assertFailure
        (CStr.lit (LIBMPV42_STRINGIFY (40 :: text ++ [41]))) [] w).1
      (MP4Error.ofFormat h assertFailure
        (CStr.lit (LIBMPV42_STRINGIFY (40 :: text ++ [41]))) [] w).2
  else Res.ret () w

/-- Source `VERBOSE(exprverbosity, verbosity, expr)`:
`if (((exprverbosity) & (verbosity)) == (exprverbosity)) { expr; }`.
The diagnostic action `expr` is a transformer of the state `σ` it acts on. -/
def VERBOSE {σ : Type} (exprverbosity verbosity : Nat) (expr : σ → σ) (s : σ) : σ :=
  if (exprverbosity &&& verbosity) = exprverbosity then expr s else s

/-- Source `VERBOSE_READ_TABLE(verbosity, expr)`, the masks `MP4_DETAILS_READ`
and `MP4_DETAILS_TABLE` (defined outside `src/`) being parameters. -/
def VERBOSE_READ_TABLE {σ : Type} (detailsRead detailsTable : Nat) (verbosity : Nat)
    (expr : σ → σ) (s : σ) : σ :=
  VERBOSE (detailsRead ||| detailsTable) verbosity expr s

/-- Source `CHECK_AND_FREE(a)`:
`if ((a) != NULL) { free((void *)(a)); (a) = NULL;}`. The result is the value
of the variable `a` after the macro, and the state. -/
def CHECK_AND_FREE (a : Nat) (w : World) : Nat × World :=
  if a ≠ 0 then (0, hostFree a w) else (a, w)

/-! ### Codec lemmas -/

theorem bswap32_bytes (b0 b1 b2 b3 : Nat) (h0 : b0 < 256) (h1 : b1 < 256)
    (h2 : b2 < 256) (h3 : b3 < 256) :
    bswap32 (b3 * 2 ^ 24 + b2 * 2 ^ 16 + b1 * 2 ^ 8 + b0)
      = b0 * 2 ^ 24 + b1 * 2 ^ 16 + b2 * 2 ^ 8 + b3 := by
  simp only [bswap32, byteOf]
  norm_num
  omega

theorem STRTOINT32_cons (e : Endian) (b0 b1 b2 b3 : Nat) (rest : List Nat)
    (h0 : b0 < 256) (h1 : b1 < 256) (h2 : b2 < 256) (h3 : b3 < 256) :
    STRTOINT32 e (b0 :: b1 :: b2 :: b3 :: rest)
      = some (b0 * 2 ^ 24 + b1 * 2 ^ 16 + b2 * 2 ^ 8 + b3) := by
  cases e
  · simp only [STRTOINT32, load32, MP4V2_NTOHL, Option.map_some']
    rw [bswap32_bytes b0 b1 b2 b3 h0 h1 h2 h3]
  · simp only [STRTOINT32, load32, MP4V2_NTOHL, Option.map_some']
    congr 1
    omega

theorem byteOf_lt (x k : Nat) : byteOf x k < 256 := by
  unfold byteOf
  exact Nat.mod_lt _ (by decide)

theorem byteOf_pack (b0 b1 b2 b3 : Nat) (h0 : b0 < 256) (h1 : b1 < 256)
    (h2 : b2 < 256) (h3 : b3 < 256) :
    byteOf (b3 * 2 ^ 24 + b2 * 2 ^ 16 + b1 * 2 ^ 8 + b0) 0 = b0
    ∧ byteOf (b3 * 2 ^ 24 + b2 * 2 ^ 16 + b1 * 2 ^ 8 + b0) 1 = b1
    ∧ byteOf (b3 * 2 ^ 24 + b2 * 2 ^ 16 + b1 * 2 ^ 8 + b0) 2 = b2
    ∧ byteOf (b3 * 2 ^ 24 + b2 * 2 ^ 16 + b1 * 2 ^ 8 + b0) 3 = b3 := by
  simp only [byteOf]
  norm_num
  refine ⟨?_, ?_, ?_, ?_⟩ <;> omega

theorem byteOf_sum (v : Nat) (hv : v < 2 ^ 32) :
    byteOf v 3 * 2 ^ 24 + byteOf v 2 * 2 ^ 16 + byteOf v 1 * 2 ^ 8 + byteOf v 0 = v := by
  simp only [byteOf]
  norm_num at *
  omega

theorem INT32TOSTR_cons (e : Endian) (v a0 a1 a2 a3 a4 : Nat) (rest : List Nat)
    (hv : v < 2 ^ 32) :
    INT32TOSTR e v (a0 :: a1 :: a2 :: a3 :: a4 :: rest)
      = some (byteOf v 3 :: byteOf v 2 :: byteOf v 1 :: byteOf v 0 :: 0 :: rest) := by
  cases e
  · have h := byteOf_pack (byteOf v 3) (byteOf v 2) (byteOf v 1) (byteOf v 0)
      (byteOf_lt v 3) (byteOf_lt v 2) (byteOf_lt v 1) (byteOf_lt v 0)
    obtain ⟨h0, h1, h2, h3⟩ := h
    simp only [INT32TOSTR, store32, MP4V2_HTONL, Option.some_bind, storeByte4, bswap32,
      h0, h1, h2, h3]
  · simp only [INT32TOSTR, store32, MP4V2_HTONL, Option.some_bind, storeByte4,
      Nat.mod_eq_of_lt hv]

theorem length_five (t : List Nat) (ht : t.length = 5) :
    ∃ a0 a1 a2 a3 a4, t = [a0, a1, a2, a3, a4] := by
  match t, ht with
  | [a0, a1, a2, a3, a4], _ => exact ⟨a0, a1, a2, a3, a4, rfl⟩

/-! ### Memory and string lemmas -/

theorem readBytes_writeBytes (m : Nat → Nat) (p : Nat) (bs : List Nat) :
    readBytes (writeBytes m p bs) p bs.length = bs := by
  apply List.ext_getElem
  · simp [readBytes]
  · intro i h1 h2
    simp only [readBytes, List.getElem_map, List.getElem_range, writeBytes]
    have hlt : p ≤ p + i ∧ p + i < p + bs.length := ⟨by omega, by omega⟩
    rw [if_pos hlt]
    simp [List.getD_eq_getElem?_getD, h2]

theorem writeBytes_replicate (m : Nat → Nat) (p c n i : Nat) (hi : i < n) :
    writeBytes m p (List.replicate n c) (p + i) = c := by
  have hlt : p ≤ p + i ∧ p + i < p + (List.replicate n c).length := by
    simp only [List.length_replicate]
    omega
  simp only [writeBytes]
  rw [if_pos hlt]
  simp [List.getD_eq_getElem?_getD, hi]

theorem strlen_append_nul (s rest : List Nat) (hs : ∀ b ∈ s, b ≠ 0) :
    strlen (s ++ 0 :: rest) = some s.length := by
  induction s with
  | nil => simp [strlen]
  | cons b t ih =>
    have hb : b ≠ 0 := hs b (List.mem_cons_self b t)
    have ht : ∀ c ∈ t, c ≠ 0 := fun c hc => hs c (List.mem_cons_of_mem b hc)
    simp [strlen, hb, ih ht]

theorem take_append_nul (s rest : List Nat) :
    (s ++ 0 :: rest).take (s.length + 1) = s ++ [0] := by
  induction s with
  | nil => simp
  | cons b t ih => simpa using ih

/-! ## FOURCC codec: claims -/

/-- C1: for every 5-byte buffer `[b0,b1,b2,b3,b4]` and every 5-byte
destination `t`, on either byte order, `INT32TOSTR(STRTOINT32(s), t)` is
defined and leaves `t = [b0,b1,b2,b3,0]`, whatever `b4` and the previous
content of `t` were. -/
theorem fourcc_unpack_pack (e : Endian) (b0 b1 b2 b3 b4 : Nat) (t : List Nat)
    (h0 : b0 < 256) (h1 : b1 < 256) (h2 : b2 < 256) (h3 : b3 < 256)
    (ht : t.length = 5) :
    (STRTOINT32 e [b0, b1, b2, b3, b4]).bind (fun v => INT32TOSTR e v t)
      = some [b0, b1, b2, b3, 0] := by
  obtain ⟨a0, a1, a2, a3, a4, rfl⟩ := length_five t ht
  have hv : b0 * 2 ^ 24 + b1 * 2 ^ 16 + b2 * 2 ^ 8 + b3 < 2 ^ 32 := by omega
  obtain ⟨p0, p1, p2, p3⟩ := byteOf_pack b3 b2 b1 b0 h3 h2 h1 h0
  rw [STRTOINT32_cons e b0 b1 b2 b3 [b4] h0 h1 h2 h3, Option.some_bind,
    INT32TOSTR_cons e _ a0 a1 a2 a3 a4 [] hv, p0, p1, p2, p3]

theorem fourcc_unpack_pack_witness :
    (102 < 256 ∧ 116 < 256 ∧ 121 < 256 ∧ 112 < 256 ∧ [1, 2, 3, 4, 5].length = 5)
    ∧ (STRTOINT32 Endian.little [102, 116, 121, 112, 33]).bind
        (fun v => INT32TOSTR Endian.little v [1, 2, 3, 4, 5])
      = some [102, 116, 121, 112, 0] :=
  ⟨by decide,
   fourcc_unpack_pack Endian.little 102 116 121 112 33 [1, 2, 3, 4, 5]
     (by decide) (by decide) (by decide) (by decide) (by decide)⟩

/-- C2: for every 32-bit `v` and every 5-byte buffer `s`, on either byte
order, `STRTOINT32` applied to the buffer written by `INT32TOSTR(v, s)`
returns `v`; both functions are defined on every 5-byte buffer. -/
theorem fourcc_pack_unpack (e : Endian) (v : Nat) (s : List Nat)
    (hv : v < 2 ^ 32) (hs : s.length = 5) :
    (INT32TOSTR e v s).bind (STRTOINT32 e) = some v
    ∧ (INT32TOSTR e v s).isSome = true ∧ (STRTOINT32 e s).isSome = true := by
  obtain ⟨a0, a1, a2, a3, a4, rfl⟩ := length_five s hs
  refine ⟨?_, ?_, ?_⟩
  · rw [INT32TOSTR_cons e v a0 a1 a2 a3 a4 [] hv, Option.some_bind,
      STRTOINT32_cons e _ _ _ _ [0] (byteOf_lt v 3) (byteOf_lt v 2) (byteOf_lt v 1)
        (byteOf_lt v 0), byteOf_sum v hv]
  · rw [INT32TOSTR_cons e v a0 a1 a2 a3 a4 [] hv]
    rfl
  · cases e <;> rfl

theorem fourcc_pack_unpack_witness :
    (1836019574 < 2 ^ 32 ∧ [9, 9, 9, 9, 9].length = 5)
    ∧ ((INT32TOSTR Endian.little 1836019574 [9, 9, 9, 9, 9]).bind
          (STRTOINT32 Endian.little) = some 1836019574
      ∧ (INT32TOSTR Endian.little 1836019574 [9, 9, 9, 9, 9]).isSome = true
      ∧ (STRTOINT32 Endian.little [9, 9, 9, 9, 9]).isSome = true) :=
  ⟨by decide,
   fourcc_pack_unpack Endian.little 1836019574 [9, 9, 9, 9, 9] (by decide) (by decide)⟩

/-- C3: for every buffer whose first four bytes are `b0,b1,b2,b3`, on either
byte order, `STRTOINT32` returns `b0*2^24 + b1*2^16 + b2*2^8 + b3`; the
result is the same for any two buffers that agree on these four bytes
(the fifth byte is not read); the bytes of "ftyp" pack to `0x66747970`. -/
theorem STRTOINT32_big_endian (e : Endian) (b0 b1 b2 b3 : Nat) (rest rest2 : List Nat)
    (h0 : b0 < 256) (h1 : b1 < 256) (h2 : b2 < 256) (h3 : b3 < 256) :
    STRTOINT32 e (b0 :: b1 :: b2 :: b3 :: rest)
      = some (b0 * 2 ^ 24 + b1 * 2 ^ 16 + b2 * 2 ^ 8 + b3)
    ∧ STRTOINT32 e (b0 :: b1 :: b2 :: b3 :: rest)
      = STRTOINT32 e (b0 :: b1 :: b2 :: b3 :: rest2)
    ∧ STRTOINT32 e [0x66, 0x74, 0x79, 0x70, 0] = some 0x66747970 := by
  refine ⟨STRTOINT32_cons e b0 b1 b2 b3 rest h0 h1 h2 h3, ?_, ?_⟩
  · rw [STRTOINT32_cons e b0 b1 b2 b3 rest h0 h1 h2 h3,
      STRTOINT32_cons e b0 b1 b2 b3 rest2 h0 h1 h2 h3]
  · cases e <;> decide

theorem STRTOINT32_big_endian_witness :
    (109 < 256 ∧ 111 < 256 ∧ 111 < 256 ∧ 118 < 256)
    ∧ (STRTOINT32 Endian.big (109 :: 111 :: 111 :: 118 :: [0])
        = some (109 * 2 ^ 24 + 111 * 2 ^ 16 + 111 * 2 ^ 8 + 118)
      ∧ STRTOINT32 Endian.big (109 :: 111 :: 111 :: 118 :: [0])
        = STRTOINT32 Endian.big (109 :: 111 :: 111 :: 118 :: [255, 7])
      ∧ STRTOINT32 Endian.big [0x66, 0x74, 0x79, 0x70, 0] = some 0x66747970) :=
  ⟨by decide,
   STRTOINT32_big_endian Endian.big 109 111 111 118 [0] [255, 7]
     (by decide) (by decide) (by decide) (by decide)⟩

/-- C4: for every 32-bit `v` and every 5-byte buffer `s`, on either byte
order, `INT32TOSTR(v, s)` leaves `s[k] = (v >> (24 - 8k)) mod 256` for
`k = 0..3` and `s[4] = 0`; reading `s[0..3]` back as a big-endian integer
yields `v`; `v = 0x6D6F6F76` yields the bytes `'m','o','o','v',0`. -/
theorem INT32TOSTR_big_endian (e : Endian) (v : Nat) (s : List Nat)
    (hv : v < 2 ^ 32) (hs : s.length = 5) :
    (∃ t : List Nat, INT32TOSTR e v s = some t ∧ t.length = 5
      ∧ (∀ k : Nat, k < 4 → t.getD k 0 = (v >>> (24 - 8 * k)) % 256)
      ∧ t.getD 4 0 = 0
      ∧ t.getD 0 0 * 2 ^ 24 + t.getD 1 0 * 2 ^ 16 + t.getD 2 0 * 2 ^ 8 + t.getD 3 0 = v)
    ∧ INT32TOSTR e 0x6D6F6F76 s = some [109, 111, 111, 118, 0] := by
  obtain ⟨a0, a1, a2, a3, a4, rfl⟩ := length_five s hs
  refine ⟨⟨_, INT32TOSTR_cons e v a0 a1 a2 a3 a4 [] hv, rfl, ?_, rfl, ?_⟩, ?_⟩
  · intro k hk
    interval_cases k <;> simp [byteOf, Nat.shiftRight_eq_div_pow]
  · simpa using byteOf_sum v hv
  · rw [INT32TOSTR_cons e _ a0 a1 a2 a3 a4 [] (by decide)]
    decide

theorem INT32TOSTR_big_endian_witness :
    (1836019574 < 2 ^ 32 ∧ [1, 2, 3, 4, 5].length = 5)
    ∧ ((∃ t : List Nat, INT32TOSTR Endian.little 1836019574 [1, 2, 3, 4, 5] = some t
        ∧ t.length = 5
        ∧ (∀ k : Nat, k < 4 → t.getD k 0 = (1836019574 >>> (24 - 8 * k)) % 256)
        ∧ t.getD 4 0 = 0
        ∧ t.getD 0 0 * 2 ^ 24 + t.getD 1 0 * 2 ^ 16 + t.getD 2 0 * 2 ^ 8 + t.getD 3 0
            = 1836019574)
      ∧ INT32TOSTR Endian.little 0x6D6F6F76 [1, 2, 3, 4, 5] = some [109, 111, 111, 118, 0]) :=
  ⟨by decide,
   INT32TOSTR_big_endian Endian.little 1836019574 [1, 2, 3, 4, 5] (by decide) (by decide)⟩

/-! ## Allocator wrappers: claims -/

/-- C5: `MP4Malloc(0)`, `MP4Calloc(0)` and `MP4Realloc(NULL, 0)` each return
`NULL` without raising, for every behaviour of the host allocator; the state,
and with it the log of host allocator calls, is unchanged (the host is not
consulted). -/
theorem alloc_zero_size (h : Host) (w : World) :
    MP4Malloc h 0 w = Res.ret 0 w
    ∧ MP4Calloc h 0 w = Res.ret 0 w
    ∧ MP4Realloc h 0 0 w = Res.ret 0 w := by
  refine ⟨?_, ?_, ?_⟩ <;> simp [MP4Malloc, MP4Calloc, MP4Realloc]

/-- C6: `MP4Malloc(n)` raises iff `n > 0` and the host `malloc` returns
`NULL`; `MP4Realloc(p, n)`, `n` a `uint32_t`, raises iff `n > 0` and the host
`realloc` returns `NULL`; a raised `MP4Error` has `m_errno` equal to the host
error number, `m_errstring` and `m_where` `NULL` and `m_free` 0; when nothing
is raised and `n > 0`, the wrapper returns exactly the pointer the host
returned. -/
theorem alloc_raises_iff (h : Host) (p n : Nat) (w : World) :
    ((∃ err w1, MP4Malloc h n w = Res.raise err w1)
        ↔ (0 < n ∧ (h.malloc w n).ptr = 0))
    ∧ (n < 2 ^ 32 → ((∃ err w1, MP4Realloc h p n w = Res.raise err w1)
        ↔ (0 < n ∧ (h.realloc w p n).ptr = 0)))
    ∧ (∀ err w1, MP4Malloc h n w = Res.raise err w1 →
        err = { m_free := 0, m_errno := (h.malloc w n).errno,
                m_errstring := CStr.null, m_where := CStr.null })
    ∧ (n < 2 ^ 32 → ∀ err w1, MP4Realloc h p n w = Res.raise err w1 →
        err = { m_free := 0, m_errno := (h.realloc w p n).errno,
                m_errstring := CStr.null, m_where := CStr.null })
    ∧ (0 < n → (h.malloc w n).ptr ≠ 0 →
        MP4Malloc h n w = Res.ret (h.malloc w n).ptr (hostMalloc h n w).2)
    ∧ (n < 2 ^ 32 → 0 < n → (h.realloc w p n).ptr ≠ 0 →
        MP4Realloc h p n w = Res.ret (h.realloc w p n).ptr (hostRealloc h p n w).2) := by
  refine ⟨?_, ?_, ?_, ?_, ?_, ?_⟩
  · by_cases hn : n = 0
    · simp [MP4Malloc, hn]
    · by_cases hp : (h.malloc w n).ptr = 0
      · simp [MP4Malloc, hostMalloc, hn, hp, Nat.pos_of_ne_zero hn]
      · simp [MP4Malloc, hostMalloc, hn, hp]
  · intro h32
    have hm : n % 2 ^ 32 = n := Nat.mod_eq_of_lt h32
    simp only [MP4Realloc, hm]
    by_cases hn : n = 0
    · by_cases hp0 : p = 0
      · simp [hn, hp0]
      · simp [hostRealloc, hn, hp0]
    · by_cases hp : (h.realloc w p n).ptr = 0
      · simp [hostRealloc, hn, hp, Nat.pos_of_ne_zero hn]
      · simp [hostRealloc, hn, hp]
  · intro err w1
    by_cases hn : n = 0
    · simp [MP4Malloc, hn]
    · by_cases hp : (h.malloc w n).ptr = 0
      · simp only [MP4Malloc, hostMalloc, hn, hp, Nat.pos_of_ne_zero hn, if_false,
          and_self, if_true, gt_iff_lt, MP4Error.ofCode]
        intro heq
        injection heq with h1 h2
        exact h1.symm
      · simp [MP4Malloc, hostMalloc, hn, hp]
  · intro h32 err w1
    have hm : n % 2 ^ 32 = n := Nat.mod_eq_of_lt h32
    simp only [MP4Realloc, hm]
    by_cases hn : n = 0
    · by_cases hp0 : p = 0
      · simp [hn, hp0]
      · simp [hostRealloc, hn, hp0]
    · by_cases hp : (h.realloc w p n).ptr = 0
      · simp only [hostRealloc, hn, hp, Nat.pos_of_ne_zero hn, if_false,
          and_self, and_false, if_true, gt_iff_lt, MP4Error.ofCode]
        intro heq
        injection heq with h1 h2
        exact h1.symm
      · simp [hostRealloc, hn, hp]
  · intro hn hp
    have hn0 : n ≠ 0 := Nat.pos_iff_ne_zero.mp hn
    simp [MP4Malloc, hostMalloc, hn0, hp]
  · intro h32 hn hp
    have hm : n % 2 ^ 32 = n := Nat.mod_eq_of_lt h32
    have hn0 : n ≠ 0 := Nat.pos_iff_ne_zero.mp hn
    simp only [MP4Realloc, hm]
    simp [hostRealloc, hn0, hp]

theorem alloc_raises_iff_witness :
    (∃ err w1, MP4Malloc (denyHost 12) 16 world0 = Res.raise err w1)
    ∧ (∃ err w1, MP4Realloc (denyHost 12) 4096 16 world0 = Res.raise err w1)
    ∧ MP4Malloc (grantHost 4096) 16 world0
        = Res.ret 4096 (hostMalloc (grantHost 4096) 16 world0).2
    ∧ MP4Realloc (grantHost 4096) 64 16 world0
        = Res.ret 4096 (hostRealloc (grantHost 4096) 64 16 world0).2 :=
  ⟨(alloc_raises_iff (denyHost 12) 4096 16 world0).1.mpr ⟨by decide, rfl⟩,
   ((alloc_raises_iff (denyHost 12) 4096 16 world0).2.1 (by decide)).mpr ⟨by decide, rfl⟩,
   (alloc_raises_iff (grantHost 4096) 64 16 world0).2.2.2.2.1 (by decide) (by decide),
   (alloc_raises_iff (grantHost 4096) 64 16 world0).2.2.2.2.2 (by decide) (by decide)
     (by decide)⟩

/-- The width of `newSize` at work: a caller's `2^32` reaches `MP4Realloc` as
0, so a non-`NULL` block is handed to `realloc(p, 0)` and a `NULL` answer is
returned without a raise. -/
theorem MP4Realloc_wraps :
    MP4Realloc (denyHost 12) 4096 (2 ^ 32) world0
      = Res.ret 0 { errno := 12, mem := world0.mem, calls := [HostCall.realloc 4096 0] } := by
  rfl

/-- C7, as stated, fails: with the host denying every request with error
number 12, `MP4Malloc(0)` returns `NULL` without raising and without calling
the host, and `MP4Realloc(p, 0)` with `p` non-`NULL` calls the host
`realloc`, gets `NULL`, and returns it without raising. -/
theorem alloc_host_denies_zero_size_no_raise :
    ((denyHost 12).malloc world0 0).ptr = 0
    ∧ ((denyHost 12).realloc world0 4096 0).ptr = 0
    ∧ MP4Malloc (denyHost 12) 0 world0 = Res.ret 0 world0
    ∧ (¬ ∃ err w1, MP4Malloc (denyHost 12) 0 world0 = Res.raise err w1)
    ∧ MP4Realloc (denyHost 12) 4096 0 world0
        = Res.ret 0 { errno := 12, mem := world0.mem, calls := [HostCall.realloc 4096 0] }
    ∧ (¬ ∃ err w1, MP4Realloc (denyHost 12) 4096 0 world0 = Res.raise err w1) := by
  refine ⟨rfl, rfl, rfl, ?_, rfl, ?_⟩
  · rintro ⟨err, w1, heq⟩
    simp [MP4Malloc] at heq
  · rintro ⟨err, w1, heq⟩
    simp [MP4Realloc, hostRealloc, denyHost] at heq

/-- C7, amended: for every request of non-zero size `n` (for `MP4Realloc`
a `uint32_t`, `n < 2^32`), if the host allocator denies it (returns `NULL`
with error number `e`), `MP4Malloc(n)`, `MP4Calloc(n)` and `MP4Realloc(p, n)`
raise one `MP4Error` whose code is `e`;
`MP4Stralloc(s1)` does so for every NUL-terminated `s1` (its request,
`strlen(s1) + 1`, is never zero). -/
theorem alloc_host_denies_raises (h : Host) (p n len : Nat) (s1 : List Nat) (e : Int)
    (w : World) (hn : 0 < n) :
    ((h.malloc w n).ptr = 0 → (h.malloc w n).errno = e →
        ∃ err w1, MP4Malloc h n w = Res.raise err w1 ∧ err.m_errno = e)
    ∧ ((h.malloc w n).ptr = 0 → (h.malloc w n).errno = e →
        ∃ err w1, MP4Calloc h n w = Res.raise err w1 ∧ err.m_errno = e)
    ∧ (n < 2 ^ 32 → (h.realloc w p n).ptr = 0 → (h.realloc w p n).errno = e →
        ∃ err w1, MP4Realloc h p n w = Res.raise err w1 ∧ err.m_errno = e)
    ∧ (strlen s1 = some len →
        (h.malloc w (len + 1)).ptr = 0 → (h.malloc w (len + 1)).errno = e →
        ∃ err w1, MP4Stralloc h s1 w = Res.raise err w1 ∧ err.m_errno = e) := by
  have hn0 : n ≠ 0 := Nat.pos_iff_ne_zero.mp hn
  refine ⟨?_, ?_, ?_, ?_⟩
  · intro hp he
    refine ⟨MP4Error.ofCode (h.malloc w n).errno CStr.null, (hostMalloc h n w).2, ?_, he⟩
    simp [MP4Malloc, hostMalloc, hn0, hp, hn]
  · intro hp he
    refine ⟨MP4Error.ofCode (h.malloc w n).errno CStr.null, (hostMalloc h n w).2, ?_, he⟩
    simp [MP4Calloc, MP4Malloc, hostMalloc, hn0, hp, hn, Res.bind]
  · intro h32 hp he
    have hm : n % 2 ^ 32 = n := Nat.mod_eq_of_lt h32
    refine ⟨MP4Error.ofCode (h.realloc w p n).errno CStr.null, (hostRealloc h p n w).2,
      ?_, he⟩
    simp only [MP4Realloc, hm]
    simp [hostRealloc, hn0, hp, hn]
  · intro hl hp he
    refine ⟨MP4Error.ofCode (h.malloc w (len + 1)).errno CStr.null,
      (hostMalloc h (len + 1) w).2, ?_, he⟩
    simp [MP4Stralloc, hl, MP4Malloc, hostMalloc, hp, Res.bind]

theorem alloc_host_denies_raises_witness :
    0 < 16
    ∧ (∃ err w1, MP4Malloc (denyHost 12) 16 world0 = Res.raise err w1 ∧ err.m_errno = 12)
    ∧ (∃ err w1, MP4Calloc (denyHost 12) 16 world0 = Res.raise err w1 ∧ err.m_errno = 12)
    ∧ (∃ err w1, MP4Realloc (denyHost 12) 4096 16 world0 = Res.raise err w1
        ∧ err.m_errno = 12)
    ∧ (∃ err w1, MP4Stralloc (denyHost 12) [109, 112, 52, 0] world0 = Res.raise err w1
        ∧ err.m_errno = 12) :=
  ⟨by decide,
   (alloc_host_denies_raises (denyHost 12) 4096 16 3 [109, 112, 52, 0] 12 world0
      (by decide)).1 rfl rfl,
   (alloc_host_denies_raises (denyHost 12) 4096 16 3 [109, 112, 52, 0] 12 world0
      (by decide)).2.1 rfl rfl,
   (alloc_host_denies_raises (denyHost 12) 4096 16 3 [109, 112, 52, 0] 12 world0
      (by decide)).2.2.1 (by decide) rfl rfl,
   (alloc_host_denies_raises (denyHost 12) 4096 16 3 [109, 112, 52, 0] 12 world0
      (by decide)).2.2.2 (by decide) rfl rfl⟩

/-- C8: for every `n > 0` for which the host allocator succeeds,
`MP4Calloc(n)` returns the pointer obtained from the host (by one `malloc(n)`
call) and each of the `n` bytes at it is 0; `MP4Calloc(0)` returns `NULL`. -/
theorem MP4Calloc_zero_filled (h : Host) (n : Nat) (w : World)
    (hn : 0 < n) (hp : (h.malloc w n).ptr ≠ 0) :
    (∃ w1, MP4Calloc h n w = Res.ret (h.malloc w n).ptr w1
      ∧ w1.calls = w.calls ++ [HostCall.malloc n]
      ∧ ∀ i, i < n → w1.mem ((h.malloc w n).ptr + i) = 0)
    ∧ MP4Calloc h 0 w = Res.ret 0 w := by
  have hn0 : n ≠ 0 := Nat.pos_iff_ne_zero.mp hn
  refine ⟨⟨_, by simp [MP4Calloc, MP4Malloc, hostMalloc, hn0, hp, Res.bind, memset]; rfl,
    rfl, ?_⟩, by simp [MP4Calloc]⟩
  intro i hi
  exact writeBytes_replicate _ _ 0 n i hi

theorem MP4Calloc_zero_filled_witness :
    (0 < 4 ∧ ((grantHost 4096).malloc world0 4).ptr ≠ 0)
    ∧ ((∃ w1, MP4Calloc (grantHost 4096) 4 world0
          = Res.ret ((grantHost 4096).malloc world0 4).ptr w1
        ∧ w1.calls = world0.calls ++ [HostCall.malloc 4]
        ∧ ∀ i, i < 4 → w1.mem (((grantHost 4096).malloc world0 4).ptr + i) = 0)
      ∧ MP4Calloc (grantHost 4096) 0 world0 = Res.ret 0 world0) :=
  ⟨by decide, MP4Calloc_zero_filled (grantHost 4096) 4 world0 (by decide) (by decide)⟩

/-- C9: for every NUL-terminated string `s` of length `L` (no interior NUL;
`rest` is whatever follows the terminator in the array), `MP4Stralloc(s)`
makes exactly one host request, `malloc(L + 1)`; when the host grants it, the
returned pointer is the granted one, its first `L` bytes equal `s` and the
byte at index `L` is NUL; when the host denies it, the outcome is that of
`MP4Malloc(L + 1)`: an `MP4Error` carrying the host error number. -/
theorem MP4Stralloc_copy (h : Host) (s rest : List Nat) (w : World)
    (hs : ∀ b ∈ s, b ≠ 0) :
    ((h.malloc w (s.length + 1)).ptr ≠ 0 →
      ∃ w1, MP4Stralloc h (s ++ 0 :: rest) w = Res.ret (h.malloc w (s.length + 1)).ptr w1
        ∧ w1.calls = w.calls ++ [HostCall.malloc (s.length + 1)]
        ∧ readBytes w1.mem (h.malloc w (s.length + 1)).ptr (s.length + 1) = s ++ [0])
    ∧ ((h.malloc w (s.length + 1)).ptr = 0 →
      MP4Stralloc h (s ++ 0 :: rest) w = MP4Malloc h (s.length + 1) w
      ∧ MP4Stralloc h (s ++ 0 :: rest) w
          = Res.raise { m_free := 0, m_errno := (h.malloc w (s.length + 1)).errno,
                        m_errstring := CStr.null, m_where := CStr.null }
              { errno := (h.malloc w (s.length + 1)).errno,
                mem := (h.malloc w (s.length + 1)).mem,
                calls := w.calls ++ [HostCall.malloc (s.length + 1)] }) := by
  have hl := strlen_append_nul s rest hs
  refine ⟨?_, ?_⟩
  · intro hp
    refine ⟨_, by simp [MP4Stralloc, hl, MP4Malloc, hostMalloc, hp, Res.bind, strcpy]; rfl,
      rfl, ?_⟩
    simp only [take_append_nul]
    have hlen : s.length + 1 = (s ++ [0]).length := by simp
    rw [hlen]
    exact readBytes_writeBytes _ _ _
  · intro hp
    constructor
    · simp [MP4Stralloc, hl, MP4Malloc, hostMalloc, hp, Res.bind]
    · simp [MP4Stralloc, hl, MP4Malloc, hostMalloc, hp, Res.bind, MP4Error.ofCode]

theorem MP4Stralloc_copy_witness :
    (∀ b ∈ [109, 112, 52], b ≠ 0)
    ∧ (∃ w1, MP4Stralloc (grantHost 4096) ([109, 112, 52] ++ 0 :: [7, 7]) world0
          = Res.ret ((grantHost 4096).malloc world0 ([109, 112, 52].length + 1)).ptr w1
        ∧ w1.calls = world0.calls ++ [HostCall.malloc ([109, 112, 52].length + 1)]
        ∧ readBytes w1.mem ((grantHost 4096).malloc world0 ([109, 112, 52].length + 1)).ptr
            ([109, 112, 52].length + 1) = [109, 112, 52] ++ [0]) :=
  ⟨by decide,
   (MP4Stralloc_copy (grantHost 4096) [109, 112, 52] [7, 7] world0 (by decide)).1
     (by decide)⟩

/-! ## MP4Error: claims -/

theorem vsnprintf_512_mem (h : Host) (dst : Nat) (format : List Nat) (ap : List Arg)
    (w : World) :
    readBytes (vsnprintf h dst 512 format ap w).mem dst
        (((h.expand format ap).take 511).length + 1)
      = (h.expand format ap).take 511 ++ [0] := by
  have hlen : ((h.expand format ap).take 511).length + 1
      = ((h.expand format ap).take 511 ++ [0]).length := by simp
  rw [hlen]
  simp only [vsnprintf, show (512 : Nat) ≠ 0 by decide, if_false,
    show 512 - 1 = 511 by rfl]
  exact readBytes_writeBytes _ _ _

/-- C10: when the host grants the 512-byte buffer, `MP4Error(format, where,
args)` has code 0 and `MP4Error(code, format, where, args)` has the given
code; in both, `m_where` is the given `where`, `m_free` is 1, `m_errstring`
is the granted buffer, and that buffer holds the expansion of `format` with
`args` cut to at most 511 bytes, followed by NUL. With a host expanding
`%d`, format "bad %d", location "foo" and argument 7 give the message
"bad 7" and the location "foo". -/
theorem MP4Error_formatted (h : Host) (code : Int) (format : List Nat) (where_ : CStr)
    (ap : List Arg) (w : World) (hp : (h.malloc w 512).ptr ≠ 0) :
    (MP4Error.ofFormat h format where_ ap w).1
        = { m_free := 1, m_errno := 0, m_errstring := CStr.heap (h.malloc w 512).ptr,
            m_where := where_ }
    ∧ readBytes (MP4Error.ofFormat h format where_ ap w).2.mem (h.malloc w 512).ptr
          (((h.expand format ap).take 511).length + 1)
        = (h.expand format ap).take 511 ++ [0]
    ∧ (MP4Error.ofCodeFormat h code format where_ ap w).1
        = { m_free := 1, m_errno := code, m_errstring := CStr.heap (h.malloc w 512).ptr,
            m_where := where_ }
    ∧ readBytes (MP4Error.ofCodeFormat h code format where_ ap w).2.mem (h.malloc w 512).ptr
          (((h.expand format ap).take 511).length + 1)
        = (h.expand format ap).take 511 ++ [0]
    ∧ ((h.expand format ap).take 511).length ≤ 511
    ∧ (MP4Error.ofFormat (grantHost 4096) [98, 97, 100, 32, 37, 100, 0]
          (CStr.lit [102, 111, 111, 0]) [Arg.int 7] world0).1
        = { m_free := 1, m_errno := 0, m_errstring := CStr.heap 4096,
            m_where := CStr.lit [102, 111, 111, 0] }
    ∧ readBytes (MP4Error.ofFormat (grantHost 4096) [98, 97, 100, 32, 37, 100, 0]
          (CStr.lit [102, 111, 111, 0]) [Arg.int 7] world0).2.mem 4096 6
        = [98, 97, 100, 32, 55, 0] := by
  have e1 : (MP4Error.ofFormat h format where_ ap w)
      = ({ m_free := 1, m_errno := 0, m_errstring := CStr.heap (h.malloc w 512).ptr,
           m_where := where_ },
         vsnprintf h (h.malloc w 512).ptr 512 format ap (hostMalloc h 512 w).2) := by
    simp [MP4Error.ofFormat, hostMalloc, hp]
  have e2 : (MP4Error.ofCodeFormat h code format where_ ap w)
      = ({ m_free := 1, m_errno := code, m_errstring := CStr.heap (h.malloc w 512).ptr,
           m_where := where_ },
         vsnprintf h (h.malloc w 512).ptr 512 format ap (hostMalloc h 512 w).2) := by
    simp [MP4Error.ofCodeFormat, hostMalloc, hp]
  refine ⟨by rw [e1], ?_, by rw [e2], ?_, ?_, by decide, by decide⟩
  · rw [e1]
    exact vsnprintf_512_mem h _ format ap _
  · rw [e2]
    exact vsnprintf_512_mem h _ format ap _
  · simp

theorem MP4Error_formatted_witness :
    ((grantHost 4096).malloc world0 512).ptr ≠ 0
    ∧ (MP4Error.ofCodeFormat (grantHost 4096) 22 [98, 97, 100, 32, 37, 100, 0]
          (CStr.lit [102, 111, 111, 0]) [Arg.int 7] world0).1
        = { m_free := 1, m_errno := 22,
            m_errstring := CStr.heap ((grantHost 4096).malloc world0 512).ptr,
            m_where := CStr.lit [102, 111, 111, 0] } :=
  ⟨by decide,
   (MP4Error_formatted (grantHost 4096) 22 [98, 97, 100, 32, 37, 100, 0]
      (CStr.lit [102, 111, 111, 0]) [Arg.int 7] world0 (by decide)).2.2.1⟩

theorem ofFormat_granted (h : Host) (format : List Nat) (where_ : CStr)
    (ap : List Arg) (w : World) (hp : (h.malloc w 512).ptr ≠ 0) :
    MP4Error.ofFormat h format where_ ap w
      = ({ m_free := 1, m_errno := 0, m_errstring := CStr.heap (h.malloc w 512).ptr,
           m_where := where_ },
         vsnprintf h (h.malloc w 512).ptr 512 format ap (hostMalloc h 512 w).2) := by
  simp [MP4Error.ofFormat, hostMalloc, hp]

theorem ofFormat_denied (h : Host) (format : List Nat) (where_ : CStr)
    (ap : List Arg) (w : World) (hp : (h.malloc w 512).ptr = 0) :
    MP4Error.ofFormat h format where_ ap w
      = ({ m_free := 0, m_errno := 0, m_errstring := CStr.lit format, m_where := where_ },
         (hostMalloc h 512 w).2) := by
  simp [MP4Error.ofFormat, hostMalloc, hp]

theorem ofCodeFormat_granted (h : Host) (code : Int) (format : List Nat) (where_ : CStr)
    (ap : List Arg) (w : World) (hp : (h.malloc w 512).ptr ≠ 0) :
    MP4Error.ofCodeFormat h code format where_ ap w
      = ({ m_free := 1, m_errno := code, m_errstring := CStr.heap (h.malloc w 512).ptr,
           m_where := where_ },
         vsnprintf h (h.malloc w 512).ptr 512 format ap (hostMalloc h 512 w).2) := by
  simp [MP4Error.ofCodeFormat, hostMalloc, hp]

theorem ofCodeFormat_denied (h : Host) (code : Int) (format : List Nat) (where_ : CStr)
    (ap : List Arg) (w : World) (hp : (h.malloc w 512).ptr = 0) :
    MP4Error.ofCodeFormat h code format where_ ap w
      = ({ m_free := 0, m_errno := code, m_errstring := CStr.lit format,
           m_where := where_ },
         (hostMalloc h 512 w).2) := by
  simp [MP4Error.ofCodeFormat, hostMalloc, hp]

theorem vsnprintf_calls (h : Host) (dst n : Nat) (format : List Nat) (ap : List Arg)
    (w : World) : (vsnprintf h dst n format ap w).calls = w.calls := by
  unfold vsnprintf
  split <;> rfl

/-- C11: in both formatted constructors, when `malloc(512)` returns `NULL`
the construction completes (it returns a value, nothing is raised, nothing
is written): `m_errstring` is the format string itself, `m_free` is 0 and
`m_where` is the given location; the state is the one the failed `malloc`
left. -/
theorem MP4Error_format_alloc_fails (h : Host) (code : Int) (format : List Nat)
    (where_ : CStr) (ap : List Arg) (w : World) (hp : (h.malloc w 512).ptr = 0) :
    ((MP4Error.ofFormat h format where_ ap w).1.m_errstring = CStr.lit format
      ∧ (MP4Error.ofFormat h format where_ ap w).1.m_free = 0
      ∧ (MP4Error.ofFormat h format where_ ap w).1.m_where = where_
      ∧ (MP4Error.ofFormat h format where_ ap w).2 = (hostMalloc h 512 w).2)
    ∧ ((MP4Error.ofCodeFormat h code format where_ ap w).1.m_errstring = CStr.lit format
      ∧ (MP4Error.ofCodeFormat h code format where_ ap w).1.m_free = 0
      ∧ (MP4Error.ofCodeFormat h code format where_ ap w).1.m_where = where_
      ∧ (MP4Error.ofCodeFormat h code format where_ ap w).2 = (hostMalloc h 512 w).2) := by
  rw [ofFormat_denied h format where_ ap w hp,
    ofCodeFormat_denied h code format where_ ap w hp]
  exact ⟨⟨rfl, rfl, rfl, rfl⟩, ⟨rfl, rfl, rfl, rfl⟩⟩

theorem MP4Error_format_alloc_fails_witness :
    ((denyHost 12).malloc world0 512).ptr = 0
    ∧ (MP4Error.ofFormat (denyHost 12) [98, 97, 100, 32, 37, 100, 0]
          (CStr.lit [102, 111, 111, 0]) [Arg.int 7] world0).1.m_errstring
        = CStr.lit [98, 97, 100, 32, 37, 100, 0]
    ∧ (MP4Error.ofCodeFormat (denyHost 12) 22 [98, 97, 100, 32, 37, 100, 0]
          (CStr.lit [102, 111, 111, 0]) [Arg.int 7] world0).1.m_free = 0 :=
  ⟨rfl,
   (MP4Error_format_alloc_fails (denyHost 12) 22 [98, 97, 100, 32, 37, 100, 0]
      (CStr.lit [102, 111, 111, 0]) [Arg.int 7] world0 rfl).1.1,
   (MP4Error_format_alloc_fails (denyHost 12) 22 [98, 97, 100, 32, 37, 100, 0]
      (CStr.lit [102, 111, 111, 0]) [Arg.int 7] world0 rfl).2.2.1⟩

/-- C12, as stated, fails: with the host denying `malloc(512)`,
`MP4Error(22, format, where, ...)` is a borrowed-message value whose code is
22, not 0. -/
theorem MP4Error_code_kept_when_alloc_fails :
    ((denyHost 12).malloc world0 512).ptr = 0
    ∧ (MP4Error.ofCodeFormat (denyHost 12) 22 [98, 97, 100, 32, 37, 100, 0]
          (CStr.lit [102, 111, 111, 0]) [Arg.int 7] world0).1
        = { m_free := 0, m_errno := 22,
            m_errstring := CStr.lit [98, 97, 100, 32, 37, 100, 0],
            m_where := CStr.lit [102, 111, 111, 0] }
    ∧ (MP4Error.ofCodeFormat (denyHost 12) 22 [98, 97, 100, 32, 37, 100, 0]
          (CStr.lit [102, 111, 111, 0]) [Arg.int 7] world0).1.m_errno ≠ 0 := by
  refine ⟨rfl, by decide, by decide⟩

/-- C12, amended: when `malloc(512)` returns `NULL`, the constructed value
has a borrowed message (the format string, `m_free` 0); its code is 0 for
`MP4Error(format, where, ...)` and the given code for
`MP4Error(code, format, where, ...)`. -/
theorem MP4Error_alloc_fails_code (h : Host) (code : Int) (format : List Nat)
    (where_ : CStr) (ap : List Arg) (w : World) (hp : (h.malloc w 512).ptr = 0) :
    (MP4Error.ofFormat h format where_ ap w).1.m_errno = 0
    ∧ (MP4Error.ofCodeFormat h code format where_ ap w).1.m_errno = code
    ∧ (MP4Error.ofFormat h format where_ ap w).1.m_errstring = CStr.lit format
    ∧ (MP4Error.ofFormat h format where_ ap w).1.m_free = 0
    ∧ (MP4Error.ofCodeFormat h code format where_ ap w).1.m_errstring = CStr.lit format
    ∧ (MP4Error.ofCodeFormat h code format where_ ap w).1.m_free = 0 := by
  rw [ofFormat_denied h format where_ ap w hp,
    ofCodeFormat_denied h code format where_ ap w hp]
  exact ⟨rfl, rfl, rfl, rfl, rfl, rfl⟩

theorem MP4Error_alloc_fails_code_witness :
    ((denyHost 12).malloc world0 512).ptr = 0
    ∧ (MP4Error.ofFormat (denyHost 12) [98, 97, 100, 32, 37, 100, 0]
          (CStr.lit [102, 111, 111, 0]) [Arg.int 7] world0).1.m_errno = 0
    ∧ (MP4Error.ofCodeFormat (denyHost 12) 22 [98, 97, 100, 32, 37, 100, 0]
          (CStr.lit [102, 111, 111, 0]) [Arg.int 7] world0).1.m_errno = 22 :=
  ⟨rfl,
   (MP4Error_alloc_fails_code (denyHost 12) 22 [98, 97, 100, 32, 37, 100, 0]
      (CStr.lit [102, 111, 111, 0]) [Arg.int 7] world0 rfl).1,
   (MP4Error_alloc_fails_code (denyHost 12) 22 [98, 97, 100, 32, 37, 100, 0]
      (CStr.lit [102, 111, 111, 0]) [Arg.int 7] world0 rfl).2.1⟩

/-- C13: for each of the four constructors and every answer of the host to
`malloc(512)`: `m_free` is set iff `m_errstring` is the non-`NULL` buffer
this constructor obtained from `malloc`; the default and `(code, where)`
constructors allocate nothing, and destroying their value calls the
allocator not at all; construction by a formatted constructor followed by
destruction is defined and makes, after the one `malloc(512)`, exactly one
`free` of the granted buffer, and no `free` at all when the buffer was
denied (the borrowed format string is never released). -/
theorem MP4Error_ownership (h : Host) (code : Int) (format : List Nat) (where_ : CStr)
    (ap : List Arg) (w : World) :
    (MP4Error.init.m_free = 0 ∧ MP4Error.init.m_errstring = CStr.null
      ∧ MP4Error.init.destroy w = some w)
    ∧ ((MP4Error.ofCode code where_).m_free = 0
      ∧ (MP4Error.ofCode code where_).m_errstring = CStr.null
      ∧ (MP4Error.ofCode code where_).destroy w = some w)
    ∧ ((MP4Error.ofFormat h format where_ ap w).1.m_free ≠ 0
        ↔ ((MP4Error.ofFormat h format where_ ap w).1.m_errstring
              = CStr.heap (h.malloc w 512).ptr
            ∧ (h.malloc w 512).ptr ≠ 0))
    ∧ ((MP4Error.ofCodeFormat h code format where_ ap w).1.m_free ≠ 0
        ↔ ((MP4Error.ofCodeFormat h code format where_ ap w).1.m_errstring
              = CStr.heap (h.malloc w 512).ptr
            ∧ (h.malloc w 512).ptr ≠ 0))
    ∧ (∃ w2, (MP4Error.ofFormat h format where_ ap w).1.destroy
                (MP4Error.ofFormat h format where_ ap w).2 = some w2
        ∧ w2.calls = w.calls ++ HostCall.malloc 512 ::
            (if (h.malloc w 512).ptr ≠ 0 then [HostCall.free (h.malloc w 512).ptr] else []))
    ∧ (∃ w2, (MP4Error.ofCodeFormat h code format where_ ap w).1.destroy
                (MP4Error.ofCodeFormat h code format where_ ap w).2 = some w2
        ∧ w2.calls = w.calls ++ HostCall.malloc 512 ::
            (if (h.malloc w 512).ptr ≠ 0 then [HostCall.free (h.malloc w 512).ptr] else [])) := by
  refine ⟨⟨rfl, rfl, rfl⟩, ⟨rfl, rfl, rfl⟩, ?_, ?_, ?_, ?_⟩
  · by_cases hp : (h.malloc w 512).ptr = 0
    · rw [ofFormat_denied h format where_ ap w hp]
      simp [hp]
    · rw [ofFormat_granted h format where_ ap w hp]
      simp [hp]
  · by_cases hp : (h.malloc w 512).ptr = 0
    · rw [ofCodeFormat_denied h code format where_ ap w hp]
      simp [hp]
    · rw [ofCodeFormat_granted h code format where_ ap w hp]
      simp [hp]
  · by_cases hp : (h.malloc w 512).ptr = 0
    · rw [ofFormat_denied h format where_ ap w hp]
      exact ⟨_, rfl, by simp [hp, hostMalloc]⟩
    · rw [ofFormat_granted h format where_ ap w hp]
      refine ⟨hostFree (h.malloc w 512).ptr
        (vsnprintf h (h.malloc w 512).ptr 512 format ap (hostMalloc h 512 w).2), ?_, ?_⟩
      · simp [MP4Error.destroy, freeCStr]
      · simp [hostFree, vsnprintf_calls, hostMalloc, hp]
  · by_cases hp : (h.malloc w 512).ptr = 0
    · rw [ofCodeFormat_denied h code format where_ ap w hp]
      exact ⟨_, rfl, by simp [hp, hostMalloc]⟩
    · rw [ofCodeFormat_granted h code format where_ ap w hp]
      refine ⟨hostFree (h.malloc w 512).ptr
        (vsnprintf h (h.malloc w 512).ptr 512 format ap (hostMalloc h 512 w).2), ?_, ?_⟩
      · simp [MP4Error.destroy, freeCStr]
      · simp [hostFree, vsnprintf_calls, hostMalloc, hp]

/-! ## ASSERT: claims -/

/-- C14, as stated, fails: a failed `ASSERT` whose predicate is spelled `x`
raises an `MP4Error` whose message is "assert failure" (in the granted
buffer, or the borrowed literal when `malloc(512)` is denied); the spelling
of the predicate, `(x)`, is its location tag `m_where`, not its message. -/
theorem ASSERT_message_is_assert_failure :
    (∃ e w1, ASSERT (grantHost 4096) false [120] world0 = Res.raise e w1
      ∧ e.m_errstring = CStr.heap 4096
      ∧ readBytes w1.mem 4096 15 = assertFailure
      ∧ e.m_where = CStr.lit [40, 120, 41, 0])
    ∧ (∃ e w1, ASSERT (denyHost 12) false [120] world0 = Res.raise e w1
      ∧ e.m_errstring = CStr.lit assertFailure
      ∧ e.m_errstring ≠ CStr.lit [40, 120, 41, 0]
      ∧ e.m_where = CStr.lit [40, 120, 41, 0]) := by
  refine ⟨⟨_, _, rfl, by decide, by decide, by decide⟩,
    ⟨_, _, rfl, by decide, by decide, by decide⟩⟩

/-- C14, amended: `ASSERT(expr)` raises an `MP4Error` iff `expr` evaluates to
false, and returns with the state unchanged otherwise; the raised error has
code 0, carries the spelling of the predicate, in parentheses, as its
location tag `m_where`, and its message is the format "assert failure":
expanded into the owned 512-byte buffer when `malloc(512)` succeeds,
borrowed when it fails. -/
theorem ASSERT_raises_iff (h : Host) (expr : Bool) (text : List Nat) (w : World) :
    ((∃ e w1, ASSERT h expr text w = Res.raise e w1) ↔ expr = false)
    ∧ (expr = true → ASSERT h expr text w = Res.ret () w)
    ∧ (∀ e w1, ASSERT h expr text w = Res.raise e w1 →
        e.m_errno = 0
        ∧ e.m_where = CStr.lit (40 :: text ++ [41, 0])
        ∧ ((h.malloc w 512).ptr = 0 →
            e.m_errstring = CStr.lit assertFailure ∧ e.m_free = 0)
        ∧ ((h.malloc w 512).ptr ≠ 0 →
            e.m_errstring = CStr.heap (h.malloc w 512).ptr ∧ e.m_free = 1
            ∧ readBytes w1.mem (h.malloc w 512).ptr
                (((h.expand assertFailure []).take 511).length + 1)
              = (h.expand assertFailure []).take 511 ++ [0])) := by
  cases expr with
  | true => simp [ASSERT]
  | false =>
    refine ⟨by simp [ASSERT], by simp, ?_⟩
    intro e w1 heq
    simp only [ASSERT, Bool.not_false, if_true] at heq
    injection heq with he hw
    subst he
    subst hw
    by_cases hp : (h.malloc w 512).ptr = 0
    · rw [ofFormat_denied h _ _ _ w hp]
      simp [hp, LIBMPV42_STRINGIFY]
    · rw [ofFormat_granted h _ _ _ w hp]
      refine ⟨rfl, by simp [LIBMPV42_STRINGIFY], fun h0 => absurd h0 hp, fun _ => ?_⟩
      exact ⟨rfl, rfl, vsnprintf_512_mem h _ assertFailure [] _⟩

theorem ASSERT_raises_iff_witness :
    (∃ e w1, ASSERT (grantHost 4096) false [120] world0 = Res.raise e w1)
    ∧ ASSERT (grantHost 4096) true [120] world0 = Res.ret () world0 :=
  ⟨(ASSERT_raises_iff (grantHost 4096) false [120] world0).1.mpr rfl,
   (ASSERT_raises_iff (grantHost 4096) true [120] world0).2.1 rfl⟩

/-! ## Diagnostic gate and release macro: claims -/

theorem land_ne_of_testBit (x y : Nat) (i : Nat) (hx : x.testBit i = true)
    (hy : y.testBit i = false) : x &&& y ≠ x := by
  intro heq
  have hb : (x &&& y).testBit i = x.testBit i := by rw [heq]
  rw [Nat.testBit_and, hx, hy] at hb
  exact Bool.noConfusion hb

/-- C15: for every category mask `C`, active mask `A` and diagnostic action
`e`, `VERBOSE(C, A, e)` is `e` run once when `(C & A) == C` and leaves the
state untouched otherwise; with a counting action the count grows by one iff
`(C & A) == C`. With `READ`, `TABLE`, `WRITE`, `SAMPLE` single bits, `WRITE`
and `SAMPLE` different from `READ` and `TABLE`, and `A = READ|TABLE`:
`C = READ|TABLE` runs (also through `VERBOSE_READ_TABLE`), `C = WRITE` does
not, `C = READ|TABLE|SAMPLE` does not. -/
theorem VERBOSE_gate {σ : Type} (C A : Nat) (e : σ → σ) (s : σ) (n : Nat)
    (r t wr sm : Nat) (h1 : wr ≠ r) (h2 : wr ≠ t) (h3 : sm ≠ r) (h4 : sm ≠ t) :
    ((C &&& A) = C → VERBOSE C A e s = e s)
    ∧ (¬ (C &&& A) = C → VERBOSE C A e s = s)
    ∧ (VERBOSE C A (fun k : Nat => k + 1) n = n + 1 ↔ (C &&& A) = C)
    ∧ (VERBOSE C A (fun k : Nat => k + 1) n = n ↔ ¬ (C &&& A) = C)
    ∧ VERBOSE (2 ^ r ||| 2 ^ t) (2 ^ r ||| 2 ^ t) e s = e s
    ∧ VERBOSE_READ_TABLE (2 ^ r) (2 ^ t) (2 ^ r ||| 2 ^ t) e s = e s
    ∧ VERBOSE (2 ^ wr) (2 ^ r ||| 2 ^ t) e s = s
    ∧ VERBOSE (2 ^ r ||| 2 ^ t ||| 2 ^ sm) (2 ^ r ||| 2 ^ t) e s = s := by
  have hw : 2 ^ wr &&& (2 ^ r ||| 2 ^ t) ≠ 2 ^ wr := by
    apply land_ne_of_testBit _ _ wr Nat.testBit_two_pow_self
    rw [Nat.testBit_or, Nat.testBit_two_pow_of_ne (Ne.symm h1),
      Nat.testBit_two_pow_of_ne (Ne.symm h2)]
    rfl
  have hs : (2 ^ r ||| 2 ^ t ||| 2 ^ sm) &&& (2 ^ r ||| 2 ^ t) ≠ 2 ^ r ||| 2 ^ t ||| 2 ^ sm := by
    apply land_ne_of_testBit _ _ sm
    · rw [Nat.testBit_or, Nat.testBit_two_pow_self]
      simp
    · rw [Nat.testBit_or, Nat.testBit_two_pow_of_ne (Ne.symm h3),
        Nat.testBit_two_pow_of_ne (Ne.symm h4)]
      rfl
  refine ⟨?_, ?_, ?_, ?_, ?_, ?_, ?_, ?_⟩
  · intro hg
    simp [VERBOSE, hg]
  · intro hg
    simp [VERBOSE, hg]
  · by_cases hg : (C &&& A) = C <;> simp [VERBOSE, hg]
  · by_cases hg : (C &&& A) = C <;> simp [VERBOSE, hg]
  · simp [VERBOSE]
  · simp [VERBOSE_READ_TABLE, VERBOSE]
  · simp [VERBOSE, hw]
  · simp [VERBOSE, hs]

theorem VERBOSE_gate_witness :
    ((3 : Nat) ≠ 2 ∧ (3 : Nat) ≠ 5 ∧ (6 : Nat) ≠ 2 ∧ (6 : Nat) ≠ 5)
    ∧ VERBOSE (2 ^ 2 ||| 2 ^ 5) (2 ^ 2 ||| 2 ^ 5) (fun k : Nat => k + 1) 0 = 1
    ∧ VERBOSE (2 ^ 3) (2 ^ 2 ||| 2 ^ 5) (fun k : Nat => k + 1) 0 = 0
    ∧ VERBOSE (2 ^ 2 ||| 2 ^ 5 ||| 2 ^ 6) (2 ^ 2 ||| 2 ^ 5) (fun k : Nat => k + 1) 0 = 0 :=
  ⟨by decide,
   (VERBOSE_gate 0 0 (fun k : Nat => k + 1) 0 0 2 5 3 6
      (by decide) (by decide) (by decide) (by decide)).2.2.2.2.1,
   (VERBOSE_gate 0 0 (fun k : Nat => k + 1) 0 0 2 5 3 6
      (by decide) (by decide) (by decide) (by decide)).2.2.2.2.2.2.1,
   (VERBOSE_gate 0 0 (fun k : Nat => k + 1) 0 0 2 5 3 6
      (by decide) (by decide) (by decide) (by decide)).2.2.2.2.2.2.2⟩

/-- C16: `CHECK_AND_FREE(a)` on `NULL` calls nothing and leaves `NULL`; on a
non-`NULL` pointer it makes exactly one `free(a)` call and sets `a` to
`NULL`; after it `a` is always `NULL`, so applying it a second time changes
nothing (no second release). The macro only returns: it has no raising
path. -/
theorem CHECK_AND_FREE_idempotent (a : Nat) (w : World) :
    CHECK_AND_FREE 0 w = (0, w)
    ∧ (a ≠ 0 → CHECK_AND_FREE a w
        = (0, { errno := w.errno, mem := w.mem, calls := w.calls ++ [HostCall.free a] }))
    ∧ (CHECK_AND_FREE a w).1 = 0
    ∧ CHECK_AND_FREE (CHECK_AND_FREE a w).1 (CHECK_AND_FREE a w).2 = CHECK_AND_FREE a w := by
  refine ⟨rfl, ?_, ?_, ?_⟩
  · intro ha
    simp [CHECK_AND_FREE, ha, hostFree]
  · by_cases ha : a = 0 <;> simp [CHECK_AND_FREE, ha]
  · by_cases ha : a = 0 <;> simp [CHECK_AND_FREE, ha]

theorem CHECK_AND_FREE_idempotent_witness :
    (4096 : Nat) ≠ 0
    ∧ CHECK_AND_FREE 4096 world0
        = (0, { errno := world0.errno, mem := world0.mem,
                calls := world0.calls ++ [HostCall.free 4096] }) :=
  ⟨by decide, (CHECK_AND_FREE_idempotent 4096 world0).2.1 (by decide)⟩

/-- C17: for every `n > 0` and every host behaviour, `MP4Malloc(n)` either
raises or returns a non-`NULL` pointer (it has no undefined outcome); hence
the `memset` of `MP4Calloc`, reached only for `n > 0`, and the `strcpy` of
`MP4Stralloc`, whose request is `strlen(s1) + 1`, never receive a `NULL`
destination: neither wrapper has an undefined outcome. -/
theorem MP4Malloc_nonnull (h : Host) (n len : Nat) (s1 : List Nat) (w : World)
    (hn : 0 < n) :
    ((∃ e w1, MP4Malloc h n w = Res.raise e w1)
      ∨ (∃ p w1, MP4Malloc h n w = Res.ret p w1 ∧ p ≠ 0))
    ∧ (∀ p w1, MP4Malloc h n w = Res.ret p w1 → p ≠ 0 ∧ memset p 0 n w1 ≠ Res.undef)
    ∧ (∀ m, MP4Calloc h m w ≠ Res.undef)
    ∧ (strlen s1 = some len →
        (∀ p w1, MP4Malloc h (len + 1) w = Res.ret p w1 →
          p ≠ 0 ∧ strcpy p s1 w1 ≠ Res.undef)
        ∧ MP4Stralloc h s1 w ≠ Res.undef) := by
  have hn0 : n ≠ 0 := Nat.pos_iff_ne_zero.mp hn
  have key : ∀ (k : Nat), k ≠ 0 → ∀ p w1, MP4Malloc h k w = Res.ret p w1 → p ≠ 0 := by
    intro k hk p w1 heq
    by_cases hp : (h.malloc w k).ptr = 0
    · simp [MP4Malloc, hostMalloc, hk, hp, Nat.pos_of_ne_zero hk] at heq
    · simp only [MP4Malloc, hostMalloc, hk, hp, if_false, false_and] at heq
      injection heq with h1 h2
      rw [← h1]
      exact hp
  refine ⟨?_, ?_, ?_, ?_⟩
  · by_cases hp : (h.malloc w n).ptr = 0
    · left
      exact ⟨MP4Error.ofCode (h.malloc w n).errno CStr.null, (hostMalloc h n w).2,
        by simp [MP4Malloc, hostMalloc, hn0, hp, hn]⟩
    · right
      exact ⟨(h.malloc w n).ptr, (hostMalloc h n w).2,
        by simp [MP4Malloc, hostMalloc, hn0, hp], hp⟩
  · intro p w1 heq
    have hp := key n hn0 p w1 heq
    exact ⟨hp, by simp [memset, hp]⟩
  · intro m
    by_cases hm : m = 0
    · simp [MP4Calloc, hm]
    · by_cases hp : (h.malloc w m).ptr = 0
      · simp [MP4Calloc, MP4Malloc, hostMalloc, hm, hp, Nat.pos_of_ne_zero hm, Res.bind]
      · simp [MP4Calloc, MP4Malloc, hostMalloc, hm, hp, Res.bind, memset]
  · intro hl
    constructor
    · intro p w1 heq
      have hp := key (len + 1) (Nat.succ_ne_zero len) p w1 heq
      exact ⟨hp, by simp [strcpy, hl, hp]⟩
    · by_cases hp : (h.malloc w (len + 1)).ptr = 0
      · simp [MP4Stralloc, hl, MP4Malloc, hostMalloc, hp, Res.bind]
      · simp [MP4Stralloc, hl, MP4Malloc, hostMalloc, hp, Res.bind, strcpy]

theorem MP4Malloc_nonnull_witness :
    0 < 16
    ∧ ((∃ e w1, MP4Malloc (grantHost 4096) 16 world0 = Res.raise e w1)
      ∨ (∃ p w1, MP4Malloc (grantHost 4096) 16 world0 = Res.ret p w1 ∧ p ≠ 0))
    ∧ MP4Stralloc (grantHost 4096) [109, 112, 52, 0] world0 ≠ Res.undef :=
  ⟨by decide,
   (MP4Malloc_nonnull (grantHost 4096) 16 3 [109, 112, 52, 0] world0 (by decide)).1,
   ((MP4Malloc_nonnull (grantHost 4096) 16 3 [109, 112, 52, 0] world0
      (by decide)).2.2.2 (by decide)).2⟩

/-- C18: the `VERBOSE` gate is monotone in the active mask: if
`(C & A) == C` and `(A & A2) == A` then `(C & A2) == C`, so a diagnostic that
runs under `A` runs under `A2`; and for `C = 0` the diagnostic runs for
every active mask. -/
theorem VERBOSE_monotone {σ : Type} (C A A2 : Nat) (e : σ → σ) (s : σ)
    (h1 : (C &&& A) = C) (h2 : (A &&& A2) = A) :
    (C &&& A2) = C
    ∧ VERBOSE C A e s = e s
    ∧ VERBOSE C A2 e s = e s
    ∧ (∀ B, VERBOSE 0 B e s = e s) := by
  have h3 : (C &&& A2) = C := by
    calc C &&& A2 = (C &&& A) &&& A2 := by rw [h1]
      _ = C &&& (A &&& A2) := Nat.and_assoc C A A2
      _ = C := by rw [h2, h1]
  refine ⟨h3, by simp [VERBOSE, h1], by simp [VERBOSE, h3], ?_⟩
  intro B
  simp [VERBOSE]

theorem VERBOSE_monotone_witness :
    (((4 : Nat) &&& 36) = 4 ∧ ((36 : Nat) &&& 100) = 36)
    ∧ (((4 : Nat) &&& 100) = 4
      ∧ VERBOSE 4 36 (fun k : Nat => k + 1) 0 = 0 + 1
      ∧ VERBOSE 4 100 (fun k : Nat => k + 1) 0 = 0 + 1
      ∧ (∀ B, VERBOSE 0 B (fun k : Nat => k + 1) 0 = 0 + 1)) :=
  ⟨by decide, VERBOSE_monotone 4 36 100 (fun k : Nat => k + 1) 0 (by decide) (by decide)⟩

end mp4v2.impl
